import Mathlib

/-!
Verification of the `Animation` event scheduler of `vedo/applications.py`
(class `Animation`, lines 2520-2919).

The embedding models:
  * scene objects (`MObj`) with the visual properties the scheduler touches;
  * the booking-phase state of an `Animation` instance (`Animation`);
  * the argument-defaulting and time-quantization helper `_parse`;
  * the booking branches of `fade_in`, `fade_out`, `change_alpha_between`,
    `change_color`, `change_lighting`, `move`, `rotate`;
  * the playback branches of those methods (`applyEvent`);
  * the `play` driver, with the video writer modelled as open/frame/close
    counters (the writer is an opaque external collaborator per the spec).

Python floats are modelled as rationals (`ℚ`); `int(x)` is truncation toward
zero (`truncQ`); exceptions are modelled with `Except`, whose error value
carries the instance state at the raise point (Python mutations performed
before a raise persist).
-/

namespace Vedo

/-- Result of Python `int(x)` on a rational: truncation toward zero. -/
def truncQ (x : ℚ) : ℤ := if 0 ≤ x then ⌊x⌋ else ⌈x⌉

/-- Model of `numpy.linspace a b num` (an external library call): `num` evenly
spaced points from `a` to `b` inclusive; a single point is `a` itself. -/
def linspace (a b : ℚ) (num : ℕ) : List ℚ :=
  (List.range num).map (fun (i : ℕ) => a + (b - a) * (i : ℚ) / ((num : ℚ) - 1))

/-- Modelled from the spec: `vedo.utils.lin_interpolate` is part of the
repository but not under `src/`; per the spec it is linear interpolation of
`x` from the range `[x0, x1]` to the range `[y0, y1]` (the degenerate range
`x0 = x1` follows the rational convention `q / 0 = 0`, giving `y0`). -/
def lin_interpolate (x x0 x1 y0 y1 : ℚ) : ℚ :=
  y0 + (y1 - y0) * (x - x0) / (x1 - x0)

/-- RGB color triple. -/
abbrev Color := ℚ × ℚ × ℚ

/-- Modelled from the spec: `vedo.colors.get_color` is part of the repository
but not under `src/`; it maps a color specification (name or triple) to an
RGB triple.  Only the names the claims mention are tabulated. -/
inductive ColorSpec where
  | name (s : String)
  | rgb (c : Color)
  deriving Repr, DecidableEq

/-- Modelled from the spec: name-to-RGB lookup of `get_color`. -/
def get_color : ColorSpec → Color
  | ColorSpec.name s => if s = "red" then (1, 0, 0) else (1, 1, 1)
  | ColorSpec.rgb c => c

/-- A scene object with the visual properties the scheduler touches.
`hasAlpha` models `hasattr(a, "alpha")` (checked by `fade_in` playback but
not by `fade_out` playback). Rotations about the axes are modelled as
accumulated angles (`rotate_x` adds to `rotX`, etc.). -/
structure MObj where
  hasAlpha : Bool := true
  alpha : ℚ := 1
  color : Color := (1, 1, 1)
  pos : ℚ × ℚ × ℚ := (0, 0, 0)
  rotX : ℚ := 0
  rotY : ℚ := 0
  rotZ : ℚ := 0
  ambient : ℚ := 0
  diffuse : ℚ := 1
  specular : ℚ := 0
  specularPower : ℚ := 1
  deriving Repr, DecidableEq

/-- A rotation axis as passed to `rotate`: either a string or a vector
(the default argument is the tuple `(1, 0, 0)`). -/
inductive AxisVal where
  | str (s : String)
  | vec (v : ℚ × ℚ × ℚ)
  deriving Repr, DecidableEq

/-- The transition function recorded in an event (second tuple slot). -/
inductive AKind where
  | fade_in
  | fade_out
  | change_color
  | change_lighting
  | move
  | rotate
  deriving Repr, DecidableEq

/-- The precomputed payload of an event (fourth tuple slot). -/
inductive Payload where
  | num (a : ℚ)
  | colors (cs : List Color)
  | lighting (ls : List (ℚ × ℚ × ℚ × ℚ))
  | point (p : ℚ × ℚ × ℚ)
  | rot (axis : AxisVal) (ang : ℚ)
  deriving Repr, DecidableEq

/-- One booked event: the tuple `(tt, action, acts, inputvalues)` appended to
`self.events`. Targets are object identifiers into a scene map. -/
structure Event where
  time : ℚ
  action : AKind
  targets : List Nat
  payload : Payload
  deriving Repr, DecidableEq

/-- Booking-phase state of an `Animation` instance (`__init__`, lines
2540-2563). `video_filename` is modelled as the truthiness of the filename
string; `objects` is the master render-object list `self.objects`; `log`
collects `vedo.logger.error` messages. -/
structure Animation where
  events : List Event := []
  time_resolution : ℚ := 1 / 50
  total_duration : Option ℚ := none
  video_filename : Bool := true
  lastT : Option ℚ := none
  lastDuration : Option ℚ := none
  lastActs : Option (List Nat) := none
  objects : List Nat := []
  log : List String := []
  deriving Repr, DecidableEq

/-- The `eps` field of `Animation` (`self.eps = 0.00001`). -/
def Animation.eps : ℚ := 1 / 100000

/-- Output of `Animation._parse`: the resolved targets, quantized start time
and duration, the sample times `rng`, and the updated instance state. -/
structure ParseOut where
  acts : List Nat
  t : ℚ
  duration : ℚ
  rng : List ℚ
  st : Animation
  deriving Repr, DecidableEq

/-- Quantization step count of `_parse` (line 2592):
`nsteps = int(duration / self.time_resolution + 0.5)`. -/
def nstepsOf (res duration : ℚ) : ℤ := truncQ (duration / res + 1 / 2)

/-- Quantization of a time to the nearest multiple of the resolution
(line 2591): `int(t / self.time_resolution + 0.5) * self.time_resolution`. -/
def quantT (res t : ℚ) : ℚ := (truncQ (t / res + 1 / 2) : ℚ) * res

/-- Successful tail of `_parse` (lines 2590-2605): quantize `t` and
`duration` to the time resolution, build the inclusive sample set, record
the last-used time/duration/targets and register new targets in
`self.objects`. -/
def parseCore (st : Animation) (objs2 : List Nat) (t duration : ℚ) : ParseOut :=
  let tq : ℚ := quantT st.time_resolution t
  let nstepsZ : ℤ := nstepsOf st.time_resolution duration
  let durq : ℚ := (nstepsZ : ℚ) * st.time_resolution
  { acts := objs2
    t := tq
    duration := durq
    rng := linspace tq (tq + durq) (nstepsZ + 1).toNat
    st := { st with
            lastT := some tq
            lastDuration := some durq
            lastActs := some objs2
            objects := objs2.foldl (fun l a => if a ∈ l then l else l ++ [a]) st.objects } }

/-- Embedding of `Animation._parse` (lines 2565-2605). Omitted arguments fall
back to the last-used values through Python truthiness tests (`if self._lastT:`
treats both `None` and `0.0` as absent, yielding `0.0` either way); missing
targets raise `RuntimeError` after logging. A single object and a sequence of
objects are both modelled as a `List Nat`. -/
def Animation._parse (st : Animation) (objs : Option (List Nat)) (t0 dur0 : Option ℚ) :
    Except (Animation × String) ParseOut :=
  let t : ℚ := match t0 with
    | some tv => tv
    | none => match st.lastT with
      | some tv => if tv = 0 then 0 else tv
      | none => 0
  let duration : ℚ := match dur0 with
    | some dv => dv
    | none => match st.lastDuration with
      | some dv => if dv = 0 then 0 else dv
      | none => 0
  match objs with
  | some os => Except.ok (parseCore st os t duration)
  | none =>
    match st.lastActs with
    | some la =>
      if la.isEmpty then
        Except.error ({ st with log := st.log ++ ["Need to specify actors!"] }, "RuntimeError")
      else Except.ok (parseCore st la t duration)
    | none =>
      Except.error ({ st with log := st.log ++ ["Need to specify actors!"] }, "RuntimeError")

/-- Booking branch of `fade_in` (lines 2615-2628): one event per sample time,
with the alpha payload interpolated from 0 to 1 over the quantized window. -/
def Animation.fade_in (st : Animation) (acts : Option (List Nat)) (t duration : Option ℚ) :
    Except (Animation × String) Animation :=
  match st._parse acts t duration with
  | Except.error e => Except.error e
  | Except.ok p =>
    let evs := p.rng.map (fun tt =>
      Event.mk tt AKind.fade_in p.acts (Payload.num (lin_interpolate tt p.t (p.t + p.duration) 0 1)))
    Except.ok { p.st with events := p.st.events ++ evs }

/-- Booking branch of `fade_out` (lines 2630-2642): alpha interpolated from
1 to 0. -/
def Animation.fade_out (st : Animation) (acts : Option (List Nat)) (t duration : Option ℚ) :
    Except (Animation × String) Animation :=
  match st._parse acts t duration with
  | Except.error e => Except.error e
  | Except.ok p =>
    let evs := p.rng.map (fun tt =>
      Event.mk tt AKind.fade_out p.acts (Payload.num (lin_interpolate tt p.t (p.t + p.duration) 1 0)))
    Except.ok { p.st with events := p.st.events ++ evs }

/-- Booking branch of `change_alpha_between` (lines 2644-2654): alpha
interpolated from `alpha1` to `alpha2`; the recorded action is `self.fade_out`
(line 2650). -/
def Animation.change_alpha_between (st : Animation) (alpha1 alpha2 : ℚ)
    (acts : Option (List Nat)) (t duration : Option ℚ) :
    Except (Animation × String) Animation :=
  match st._parse acts t duration with
  | Except.error e => Except.error e
  | Except.ok p =>
    let evs := p.rng.map (fun tt =>
      Event.mk tt AKind.fade_out p.acts
        (Payload.num (lin_interpolate tt p.t (p.t + p.duration) alpha1 alpha2)))
    Except.ok { p.st with events := p.st.events ++ evs }

/-- Booking branch of `change_color` (lines 2656-2674): per target, the RGB
payload is interpolated channel-wise from the target's current color to
`get_color c`. The current colors are read from the supplied scene. -/
def Animation.change_color (st : Animation) (scene : Nat → MObj) (c : ColorSpec)
    (acts : Option (List Nat)) (t duration : Option ℚ) :
    Except (Animation × String) Animation :=
  match st._parse acts t duration with
  | Except.error e => Except.error e
  | Except.ok p =>
    let col2 := get_color c
    let evs := p.rng.map (fun tt =>
      let inputvalues := p.acts.map (fun a =>
        let col1 := (scene a).color
        (lin_interpolate tt p.t (p.t + p.duration) col1.1 col2.1,
         lin_interpolate tt p.t (p.t + p.duration) col1.2.1 col2.2.1,
         lin_interpolate tt p.t (p.t + p.duration) col1.2.2 col2.2.2))
      Event.mk tt AKind.change_color p.acts (Payload.colors inputvalues))
    Except.ok { p.st with events := p.st.events ++ evs }

/-- Style table of `change_lighting` (lines 2762-2767): ambient, diffuse,
specular, specular power (the color entry of `pars` is never used by the
payload computation and is omitted). An unknown style leaves `pars` unbound. -/
def lightingPars (style : String) : Option (ℚ × ℚ × ℚ × ℚ) :=
  if style = "metallic" then some (1 / 10, 3 / 10, 1, 10)
  else if style = "plastic" then some (3 / 10, 4 / 10, 3 / 10, 5)
  else if style = "shiny" then some (1 / 5, 3 / 5, 4 / 5, 50)
  else if style = "glossy" then some (1 / 10, 7 / 10, 9 / 10, 90)
  else if style = "default" then some (1 / 10, 1, 1 / 20, 5)
  else none

/-- Booking branch of `change_lighting` (lines 2754-2784). A recognized style
books one event per sample with the four lighting coefficients interpolated
from the target's current values; an unrecognized style logs an error, leaves
the local `pars` unassigned, and the first payload computation then raises
`UnboundLocalError` (no event is booked) unless the target list is empty, in
which case the inner loop never runs and events with empty payload lists are
booked. -/
def Animation.change_lighting (st : Animation) (scene : Nat → MObj) (style : String)
    (acts : Option (List Nat)) (t duration : Option ℚ) :
    Except (Animation × String) Animation :=
  match st._parse acts t duration with
  | Except.error e => Except.error e
  | Except.ok p =>
    match lightingPars style with
    | some pars =>
      let evs := p.rng.map (fun tt =>
        let inputvalues := p.acts.map (fun a =>
          let o := scene a
          (lin_interpolate tt p.t (p.t + p.duration) o.ambient pars.1,
           lin_interpolate tt p.t (p.t + p.duration) o.diffuse pars.2.1,
           lin_interpolate tt p.t (p.t + p.duration) o.specular pars.2.2.1,
           lin_interpolate tt p.t (p.t + p.duration) o.specularPower pars.2.2.2))
        Event.mk tt AKind.change_lighting p.acts (Payload.lighting inputvalues))
      Except.ok { p.st with events := p.st.events ++ evs }
    | none =>
      let stL := { p.st with log := p.st.log ++ ["Unknown lighting style " ++ style] }
      if p.rng.isEmpty ∨ p.acts.isEmpty then
        Except.ok { stL with events :=
          stL.events ++ p.rng.map (fun tt =>
            Event.mk tt AKind.change_lighting p.acts (Payload.lighting [])) }
      else
        Except.error (stL, "UnboundLocalError: local variable pars referenced before assignment")

/-- Substring test modelling Python `"quad" in style`. -/
def hasQuad (style : String) : Bool := (style.splitOn "quad").length > 1

/-- Booking branch of `move` (lines 2795-2814). A target count other than one
only logs an error and the call continues with the first target (an empty
target list then raises `IndexError` at `acts[0].pos()`). With
`dv = (pt - cpos) / len(rng)`, sample `j` books payload `cpos + dv * (j+1)`
(times an easing factor for a quad style). -/
def Animation.move (st : Animation) (scene : Nat → MObj) (act : Option (List Nat))
    (pt : ℚ × ℚ × ℚ) (t duration : Option ℚ) (style : String) :
    Except (Animation × String) Animation :=
  match st._parse act t duration with
  | Except.error e => Except.error e
  | Except.ok p =>
    let st1 := if p.acts.length ≠ 1 then
        { p.st with log := p.st.log ++ ["in move(), can move only one object."] }
      else p.st
    match p.acts with
    | [] => Except.error (st1, "IndexError: list index out of range")
    | a0 :: _ =>
      let cpos := (scene a0).pos
      let n : ℚ := (p.rng.length : ℚ)
      let dv : ℚ × ℚ × ℚ :=
        ((pt.1 - cpos.1) / n, (pt.2.1 - cpos.2.1) / n, (pt.2.2 - cpos.2.2) / n)
      let evs := p.rng.enum.map (fun jt =>
        let i : ℚ := (jt.1 : ℚ) + 1
        let fac : ℚ := if hasQuad style then i * ((i / n) * (i / n)) else i
        Event.mk jt.2 AKind.move p.acts
          (Payload.point (cpos.1 + dv.1 * fac, cpos.2.1 + dv.2.1 * fac, cpos.2.2 + dv.2.2 * fac)))
      Except.ok { st1 with events := st1.events ++ evs }

/-- Booking branch of `rotate` (lines 2816-2824). A target count other than
one only logs an error and the call continues; every sample books the payload
`(axis, angle / len(rng))` unchanged. -/
def Animation.rotate (st : Animation) (act : Option (List Nat)) (axis : AxisVal)
    (angle : ℚ) (t duration : Option ℚ) :
    Except (Animation × String) Animation :=
  match st._parse act t duration with
  | Except.error e => Except.error e
  | Except.ok p =>
    let st1 := if p.acts.length ≠ 1 then
        { p.st with log := p.st.log ++ ["in rotate(), can move only one object."] }
      else p.st
    let evs := p.rng.map (fun tt =>
      Event.mk tt AKind.rotate p.acts (Payload.rot axis (angle / (p.rng.length : ℚ))))
    Except.ok { st1 with events := st1.events ++ evs }

/-- Point update of a scene map (Python objects are shared references; a
setter mutates the object all aliases see). -/
def updObj (sc : Nat → MObj) (a : Nat) (f : MObj → MObj) : Nat → MObj :=
  fun b => if b = a then f (sc b) else sc b

/-- Playback branch of each transition (`action(0, 0)` with `self._performers`
and `self._inputvalues` taken from the event): one-shot application of the
precomputed payload to the targets.
  * `fade_in` (lines 2623-2627): guarded by `hasattr(a, "alpha")`; skips a
    target whose alpha is already ≥ the payload.
  * `fade_out` (lines 2638-2641): no `hasattr` guard, so a target without an
    alpha attribute raises `AttributeError`; skips a target whose alpha is
    already ≤ the payload.
  * `change_color` / `change_lighting`: indexed payload per enumerated target.
  * `move` (line 2813): `self._performers[0].pos(...)`.
  * `rotate` (lines 2826-2832): applies only when the stored axis is the
    string "x", "y" or "z"; any other value falls through silently.
The next two definitions are the per-target bodies of the `fade_in` and
`fade_out` playback loops; `fade_in` is guarded by `hasattr(a, "alpha")`,
`fade_out` is not. -/
def fadeInStep (v : ℚ) (sc : Nat → MObj) (a : Nat) : Nat → MObj :=
  if (sc a).hasAlpha then
    if v ≤ (sc a).alpha then sc
    else updObj sc a (fun o => { o with alpha := v })
  else sc

/-- One target of the `fade_out` playback loop: no `hasattr` guard, so a
target without an alpha attribute raises. -/
def fadeOutStep (v : ℚ) (sc : Nat → MObj) (a : Nat) : Except String (Nat → MObj) :=
  if (sc a).hasAlpha then
    if (sc a).alpha ≤ v then Except.ok sc
    else Except.ok (updObj sc a (fun o => { o with alpha := v }))
  else Except.error "AttributeError: object has no attribute alpha"

def applyEvent (scene : Nat → MObj) (e : Event) : Except String (Nat → MObj) :=
  match e.action, e.payload with
  | AKind.fade_in, Payload.num v =>
    Except.ok (e.targets.foldl (fadeInStep v) scene)
  | AKind.fade_out, Payload.num v =>
    e.targets.foldlM (fadeOutStep v) scene
  | AKind.change_color, Payload.colors cs =>
    e.targets.enum.foldlM (fun sc ia =>
      match cs.get? ia.1 with
      | some c => Except.ok (updObj sc ia.2 (fun o => { o with color := c }))
      | none => Except.error "IndexError: list index out of range") scene
  | AKind.change_lighting, Payload.lighting ls =>
    e.targets.enum.foldlM (fun sc ia =>
      match ls.get? ia.1 with
      | some vals => Except.ok (updObj sc ia.2 (fun o =>
          { o with ambient := vals.1, diffuse := vals.2.1,
                   specular := vals.2.2.1, specularPower := vals.2.2.2 }))
      | none => Except.error "IndexError: list index out of range") scene
  | AKind.move, Payload.point p =>
    match e.targets with
    | [] => Except.error "IndexError: list index out of range"
    | a :: _ => Except.ok (updObj scene a (fun o => { o with pos := p }))
  | AKind.rotate, Payload.rot ax ang =>
    match ax with
    | AxisVal.str s =>
      if s = "x" then
        match e.targets with
        | [] => Except.error "IndexError: list index out of range"
        | a :: _ => Except.ok (updObj scene a (fun o => { o with rotX := o.rotX + ang }))
      else if s = "y" then
        match e.targets with
        | [] => Except.error "IndexError: list index out of range"
        | a :: _ => Except.ok (updObj scene a (fun o => { o with rotY := o.rotY + ang }))
      else if s = "z" then
        match e.targets with
        | [] => Except.error "IndexError: list index out of range"
        | a :: _ => Except.ok (updObj scene a (fun o => { o with rotZ := o.rotZ + ang }))
      else Except.ok scene
    | AxisVal.vec _ => Except.ok scene
  | _, _ => Except.error "TypeError: unexpected payload shape"

/-- Outcome of `Animation.play`: the sorted event list left in `self.events`,
the scene after the applied events, the resolved total duration, the state of
the video writer (opened / frames appended / closed), the number of `show`
calls, and the propagated exception if any. -/
structure PlayOut where
  stEvents : List Event
  sceneOut : Nat → MObj
  totalDuration : Option ℚ
  videoOpened : Bool
  videoFrames : ℕ
  videoClosed : Bool
  renders : ℕ
  err : Option String

/-- The event loop of `play` (lines 2892-2911): apply each event, then render
a frame (and append it to the video) whenever the time since the last applied
event exceeds `eps`. Returns the error message at the point of interruption,
the scene, and the render / video-frame counters. -/
def playLoop (video : Bool) (eps : ℚ) :
    List Event → (Nat → MObj) → ℚ → ℕ → ℕ → Option String × (Nat → MObj) × ℕ × ℕ
  | [], scene, _, renders, frames => (none, scene, renders, frames)
  | e :: rest, scene, ttlast, renders, frames =>
    match applyEvent scene e with
    | Except.error msg => (some msg, scene, renders, frames)
    | Except.ok sc1 =>
      let dt := e.time - ttlast
      let renders1 := if dt > eps then renders + 1 else renders
      let frames1 := if dt > eps ∧ video then frames + 1 else frames
      playLoop video eps rest sc1 e.time renders1 frames1

/-- Insertion of an event into a list sorted by time, before the first entry
whose time is not strictly smaller. -/
def insortTime (e : Event) : List Event → List Event
  | [] => [e]
  | f :: rest => if f.time < e.time then f :: insortTime e rest else e :: f :: rest

/-- Model of Python `sorted(self.events, key=lambda x: x[0])` (line 2880):
a stable sort by scheduled time. Python `sorted` is stable, and any two
stable sorts with the same key agree pointwise, so an insertion sort that
keeps earlier-booked events ahead of later-booked events with the same time
is extensionally the same function; its sortedness, permutation and
stability properties are proved below. -/
def sortedByTime (l : List Event) : List Event := l.foldr insortTime []

/-- Resolution of `self.total_duration` at the top of `play` (lines
2886-2887): an explicit value is kept; otherwise it is
`events[-1][0] - events[0][0]`, which does not exist for an empty list
(`IndexError`). -/
def resolveTD (td : Option ℚ) (evs : List Event) : Option ℚ :=
  match td with
  | some v => some v
  | none =>
    match evs.getLast?, evs.head? with
    | some l, some h => some (l.time - h.time)
    | _, _ => none

/-- Body of `Animation.play` (lines 2877-2919) after the sort, taking the
already-sorted event list:
when `total_duration` is `None` it is set to `events[-1][0] - events[0][0]`,
which on an empty list raises `IndexError` before the video is even opened;
the video writer (an opaque collaborator, modelled as counters) is closed
only on the straight-line exit path after the final frame — an exception
escaping the loop leaves it open. `vd.pause` and the progress bar only
affect the encoded timing and are not tracked. -/
def playCore (td : Option ℚ) (video : Bool) (evs : List Event) (scene : Nat → MObj) :
    PlayOut :=
  match resolveTD td evs with
  | none =>
    { stEvents := evs, sceneOut := scene, totalDuration := none,
      videoOpened := false, videoFrames := 0, videoClosed := false,
      renders := 0, err := some "IndexError: list index out of range" }
  | some tdv =>
    match playLoop video Animation.eps evs scene 0 0 0 with
    | (some msg, sc, renders, frames) =>
      { stEvents := evs, sceneOut := sc, totalDuration := some tdv,
        videoOpened := video, videoFrames := frames, videoClosed := false,
        renders := renders, err := some msg }
    | (none, sc, renders, frames) =>
      { stEvents := evs, sceneOut := sc, totalDuration := some tdv,
        videoOpened := video,
        videoFrames := if video then frames + 1 else frames,
        videoClosed := video,
        renders := renders + 2, err := none }

/-- Embedding of `Animation.play` (lines 2877-2919): sort the events by
scheduled time (stable) and run the playback pass of `playCore`. -/
def Animation.play (st : Animation) (scene : Nat → MObj) : PlayOut :=
  playCore st.total_duration st.video_filename (sortedByTime st.events) scene

/-! Concrete instances used to evaluate the claims on explicit inputs. -/

/-- A scene whose objects all have the default properties. -/
def defaultScene : Nat → MObj := fun _ => {}

/-- A scene whose objects have no `alpha` attribute (e.g. assemblies). -/
def sceneNoAlpha : Nat → MObj := fun _ => { hasAlpha := false }

/-- A freshly constructed `Animation()` with all default settings. -/
def anim0 : Animation := {}

/-- An `Animation` with `time_resolution = 1` (a constructor argument). -/
def animRes1 : Animation := { time_resolution := 1 }

/-- An `Animation` with no booked events but an explicit `total_duration`. -/
def animEmptyTD : Animation := { total_duration := some 1 }

/-- An `Animation` holding one booked `fade_out` event, with an explicit
`total_duration`, targeting object 0. -/
def animC7 : Animation :=
  { events := [Event.mk 1 AKind.fade_out [0] (Payload.num (1 / 2))]
    total_duration := some 1 }

/-- A successful single-event run used as a witness for the close-on-success
path of `play`. -/
def animC7ok : Animation :=
  { events := [Event.mk 1 AKind.fade_in [0] (Payload.num (1 / 2))]
    total_duration := some 1 }

/-- A booked `change_color` event painting object 0 red at time 1. -/
def evRed : Event := Event.mk 1 AKind.change_color [0] (Payload.colors [(1, 0, 0)])

/-- A booked `change_color` event painting object 0 green at time 1. -/
def evGreen : Event := Event.mk 1 AKind.change_color [0] (Payload.colors [(0, 1, 0)])

/-- Two bookings of the same event multiset in the two possible orders. -/
def animC8a : Animation := { events := [evRed, evGreen], total_duration := some 1 }

/-- The same events as `animC8a`, booked in the opposite order. -/
def animC8b : Animation := { events := [evGreen, evRed], total_duration := some 1 }

/-- Two events with distinct times, for the C8 witness. -/
def evT0 : Event := Event.mk 0 AKind.change_color [0] (Payload.colors [(1, 0, 0)])

/-- Companion of `evT0` at time 1. -/
def evT1 : Event := Event.mk 1 AKind.change_color [0] (Payload.colors [(0, 1, 0)])

/-- Parse result of `fade_in(obj, t=0, duration=2)` on `animRes1`. -/
def c2P1 : ParseOut := parseCore animRes1 [0] 0 2

/-- Parse result of the follow-up call that omits every argument. -/
def c2P2 : ParseOut := parseCore c2P1.st [0] 0 2

/-- The two-call booking of the omitted-argument scenario, at time
resolution 1: `fade_in(obj, t=0, duration=2)` then `change_color("red")`
with all arguments omitted. -/
def c2Booked : Except (Animation × String) Animation :=
  animRes1.fade_in (some [0]) (some 0) (some 2) >>= fun s =>
    s.change_color defaultScene (ColorSpec.name "red") none none none

/-- Parse result of `_parse` for `t=0, duration=0.07` at the default
resolution `0.02`. -/
def c4P : ParseOut := parseCore anim0 [0] 0 (7 / 100)

/-- Result of booking `fade_in([0], t=0, duration=2)` at resolution 1. -/
def c3St2 : Animation :=
  ((animRes1.fade_in (some [0]) (some 0) (some 2)).toOption).getD {}

/-- Result of booking `rotate([0], axis=(1,0,0), angle=90, t=0, duration=1)`
at resolution 1 (the default tuple axis). -/
def c9St2 : Animation :=
  ((animRes1.rotate (some [0]) (AxisVal.vec (1, 0, 0)) 90 (some 0) (some 1)).toOption).getD {}

/-- Scene after playback of one `fade_out` event with payload 1/2 on object 0
of the default scene: the alpha of object 0 is lowered to 1/2. -/
def c10Sc2 : Nat → MObj := updObj defaultScene 0 (fun o => { o with alpha := 1 / 2 })

/-- Result of booking `change_alpha_between(1/2, 3/4, [0], t=0, duration=1)`
at resolution 1. -/
def c10St2 : Animation :=
  ((animRes1.change_alpha_between (1 / 2) (3 / 4) (some [0]) (some 0) (some 1)).toOption).getD {}

/-- The sorted-by-time relation used throughout: event `a` is scheduled no
later than event `b`. -/
def timeLE (a b : Event) : Prop := a.time ≤ b.time

/-! General lemmas about the quantization arithmetic. -/

theorem truncQ_cast_add_half (k : ℤ) (hk : 0 ≤ k) : truncQ ((k : ℚ) + 1 / 2) = k := by
  have h0 : (0 : ℚ) ≤ (k : ℚ) + 1 / 2 := by
    have : (0 : ℚ) ≤ (k : ℚ) := by exact_mod_cast hk
    linarith
  rw [truncQ, if_pos h0, show ((k : ℚ) + 1 / 2) = ((1 : ℚ) / 2 + k) by ring,
    Int.floor_add_int]
  norm_num

theorem nstepsOf_nonneg (res D : ℚ) (hres : 0 < res) (hD : 0 ≤ D) :
    0 ≤ nstepsOf res D := by
  have h1 : (0 : ℚ) ≤ D / res := div_nonneg hD hres.le
  have h0 : (0 : ℚ) ≤ D / res + 1 / 2 := by linarith
  rw [nstepsOf, truncQ, if_pos h0]
  exact Int.floor_nonneg.mpr h0

theorem quantT_requant (res : ℚ) (hres : 0 < res) (m : ℤ) (hm : 0 ≤ m) :
    quantT res ((m : ℚ) * res) = (m : ℚ) * res := by
  have hne : res ≠ 0 := ne_of_gt hres
  rw [quantT, mul_div_assoc, div_self hne, mul_one, truncQ_cast_add_half m hm]

theorem nstepsOf_requant (res : ℚ) (hres : 0 < res) (k : ℤ) (hk : 0 ≤ k) :
    nstepsOf res ((k : ℚ) * res) = k := by
  have hne : res ≠ 0 := ne_of_gt hres
  rw [nstepsOf, mul_div_assoc, div_self hne, mul_one, truncQ_cast_add_half k hk]

/-! General lemmas about `linspace`. -/

theorem linspace_length (a b : ℚ) (num : ℕ) : (linspace a b num).length = num := by
  simp [linspace]

theorem linspace_succ_map (a d : ℚ) (n : ℕ) :
    linspace a (a + d) (n + 1) =
      (List.range (n + 1)).map (fun (i : ℕ) => a + d * (i : ℚ) / (n : ℚ)) := by
  unfold linspace
  refine List.map_congr_left (fun i _ => ?_)
  have hc : ((n + 1 : ℕ) : ℚ) - 1 = (n : ℚ) := by push_cast; ring
  rw [hc]
  ring_nf

theorem range_succ_head (n : ℕ) : (List.range (n + 1)).head? = some 0 := by
  rw [List.range_succ_eq_map]
  rfl

theorem range_succ_getLast (n : ℕ) : (List.range (n + 1)).getLast? = some n := by
  rw [List.range_succ]
  exact List.getLast?_concat _

theorem linspace_succ_headq (a d : ℚ) (n : ℕ) :
    (linspace a (a + d) (n + 1)).head? = some a := by
  rw [linspace_succ_map, List.head?_map, range_succ_head]
  simp

theorem linspace_succ_getLastq (a d : ℚ) (n : ℕ) (hd : n = 0 → d = 0) :
    (linspace a (a + d) (n + 1)).getLast? = some (a + d) := by
  rw [linspace_succ_map, List.getLast?_map, range_succ_getLast]
  rcases Nat.eq_zero_or_pos n with h0 | hpos
  · subst h0
    simp [hd rfl]
  · have hne : (n : ℚ) ≠ 0 := by exact_mod_cast Nat.pos_iff_ne_zero.mp hpos
    simp [mul_div_assoc, div_self hne]

/-! Projection lemmas for `_parse` and `parseCore`. -/

theorem parse_some_eq (st : Animation) (os : List Nat) (tv dv : ℚ) :
    st._parse (some os) (some tv) (some dv) = Except.ok (parseCore st os tv dv) := rfl

theorem parse_ok_shape (st : Animation) (objs : Option (List Nat)) (t0 dur0 : Option ℚ)
    (p : ParseOut) (h : st._parse objs t0 dur0 = Except.ok p) :
    ∃ os tv dv, p = parseCore st os tv dv := by
  rcases objs with _ | os
  · rcases hla : st.lastActs with _ | la
    · simp only [Animation._parse, hla] at h
      exact Except.noConfusion h
    · simp only [Animation._parse, hla] at h
      by_cases he : la.isEmpty = true
      · rw [if_pos he] at h
        exact Except.noConfusion h
      · rw [if_neg he] at h
        exact ⟨la, _, _, (Except.ok.inj h).symm⟩
  · exact ⟨os, _, _, (Except.ok.inj h).symm⟩

theorem parseCore_acts (st : Animation) (os : List Nat) (tv dv : ℚ) :
    (parseCore st os tv dv).acts = os := rfl

theorem parseCore_t (st : Animation) (os : List Nat) (tv dv : ℚ) :
    (parseCore st os tv dv).t = quantT st.time_resolution tv := rfl

theorem parseCore_duration (st : Animation) (os : List Nat) (tv dv : ℚ) :
    (parseCore st os tv dv).duration =
      ((nstepsOf st.time_resolution dv : ℤ) : ℚ) * st.time_resolution := rfl

theorem parseCore_rng_def (st : Animation) (os : List Nat) (tv dv : ℚ) :
    (parseCore st os tv dv).rng =
      linspace (parseCore st os tv dv).t
        ((parseCore st os tv dv).t + (parseCore st os tv dv).duration)
        ((nstepsOf st.time_resolution dv + 1).toNat) := rfl

theorem parseCore_st_events (st : Animation) (os : List Nat) (tv dv : ℚ) :
    (parseCore st os tv dv).st.events = st.events := rfl

theorem parseCore_st_log (st : Animation) (os : List Nat) (tv dv : ℚ) :
    (parseCore st os tv dv).st.log = st.log := rfl

theorem parseCore_st_res (st : Animation) (os : List Nat) (tv dv : ℚ) :
    (parseCore st os tv dv).st.time_resolution = st.time_resolution := rfl

theorem parseCore_st_lastT (st : Animation) (os : List Nat) (tv dv : ℚ) :
    (parseCore st os tv dv).st.lastT = some (parseCore st os tv dv).t := rfl

theorem parseCore_st_lastDuration (st : Animation) (os : List Nat) (tv dv : ℚ) :
    (parseCore st os tv dv).st.lastDuration = some (parseCore st os tv dv).duration := rfl

theorem parseCore_st_lastActs (st : Animation) (os : List Nat) (tv dv : ℚ) :
    (parseCore st os tv dv).st.lastActs = some os := rfl

theorem toNat_add_one (k : ℤ) (hk : 0 ≤ k) : (k + 1).toNat = k.toNat + 1 := by omega

theorem parseCore_rng (st : Animation) (os : List Nat) (tv dv : ℚ)
    (hres : 0 < st.time_resolution) (hD : 0 ≤ dv) :
    (parseCore st os tv dv).rng =
      (List.range ((nstepsOf st.time_resolution dv).toNat + 1)).map
        (fun (i : ℕ) => (parseCore st os tv dv).t +
          (parseCore st os tv dv).duration * (i : ℚ) /
            ((nstepsOf st.time_resolution dv).toNat : ℚ)) := by
  have hk := nstepsOf_nonneg st.time_resolution dv hres hD
  rw [parseCore_rng_def, toNat_add_one _ hk, linspace_succ_map]

theorem parseCore_rng_length (st : Animation) (os : List Nat) (tv dv : ℚ)
    (hres : 0 < st.time_resolution) (hD : 0 ≤ dv) :
    (parseCore st os tv dv).rng.length = (nstepsOf st.time_resolution dv).toNat + 1 := by
  rw [parseCore_rng st os tv dv hres hD]
  simp

/-! Lemmas about the stable sort used by `play`. -/

theorem insortTime_perm (e : Event) (l : List Event) :
    List.Perm (insortTime e l) (e :: l) := by
  induction l with
  | nil => exact List.Perm.refl _
  | cons f rest ih =>
    rw [insortTime]
    by_cases hc : f.time < e.time
    · rw [if_pos hc]
      exact (ih.cons f).trans (List.Perm.swap e f rest)
    · rw [if_neg hc]

theorem sortedByTime_perm (l : List Event) : List.Perm (sortedByTime l) l := by
  induction l with
  | nil => exact List.Perm.refl _
  | cons e rest ih =>
    have hstep : sortedByTime (e :: rest) = insortTime e (sortedByTime rest) := rfl
    rw [hstep]
    exact (insortTime_perm e (sortedByTime rest)).trans (ih.cons e)

theorem insortTime_sorted (e : Event) (l : List Event) (h : l.Pairwise timeLE) :
    (insortTime e l).Pairwise timeLE := by
  induction l with
  | nil => simp [insortTime]
  | cons f rest ih =>
    rw [insortTime]
    rcases List.pairwise_cons.mp h with ⟨hf, hrest⟩
    by_cases hc : f.time < e.time
    · rw [if_pos hc]
      refine List.pairwise_cons.mpr ⟨?_, ih hrest⟩
      intro x hx
      rcases List.mem_cons.mp ((insortTime_perm e rest).mem_iff.mp hx) with hx2 | hx3
      · rw [hx2]
        exact le_of_lt hc
      · exact hf x hx3
    · rw [if_neg hc]
      refine List.pairwise_cons.mpr ⟨?_, h⟩
      intro x hx
      have he : timeLE e f := le_of_not_lt hc
      rcases List.mem_cons.mp hx with hx2 | hx3
      · rw [hx2]
        exact he
      · exact le_trans he (hf x hx3)

theorem sortedByTime_sorted (l : List Event) : (sortedByTime l).Pairwise timeLE := by
  induction l with
  | nil => simp [sortedByTime]
  | cons e rest ih => exact insortTime_sorted e (sortedByTime rest) ih

theorem eq_of_sorted_perm_nodup (l1 : List Event) :
    ∀ l2 : List Event, List.Perm l1 l2 → l1.Pairwise timeLE → l2.Pairwise timeLE →
      (l1.map (fun e => e.time)).Nodup → l1 = l2 := by
  induction l1 with
  | nil =>
    intro l2 hp _ _ _
    exact hp.nil_eq
  | cons a t1 ih =>
    intro l2 hp hs1 hs2 hnd
    rcases l2 with _ | ⟨b, t2⟩
    · exact absurd hp.eq_nil (by simp)
    · rcases List.pairwise_cons.mp hs1 with ⟨ha, ht1⟩
      rcases List.pairwise_cons.mp hs2 with ⟨hb, ht2⟩
      have hndc : a.time ∉ t1.map (fun e => e.time) ∧ (t1.map (fun e => e.time)).Nodup := by
        have hx : (List.map (fun e => e.time) (a :: t1)).Nodup := hnd
        rw [List.map_cons] at hx
        exact List.nodup_cons.mp hx
      have hab : a = b := by
        rcases List.mem_cons.mp (hp.mem_iff.mp (List.mem_cons_self a t1)) with h1 | hmem2
        · exact h1
        · rcases List.mem_cons.mp (hp.symm.mem_iff.mp (List.mem_cons_self b t2)) with h1 | hmemb2
          · exact h1.symm
          · have h1 : a.time ≤ b.time := ha b hmemb2
            have h2 : b.time ≤ a.time := hb a hmem2
            have heq : b.time = a.time := le_antisymm h2 h1
            exact absurd (heq ▸ List.mem_map_of_mem (fun e => e.time) hmemb2) hndc.1
      subst hab
      have hpt : List.Perm t1 t2 := hp.cons_inv
      rw [ih t2 hpt ht1 ht2 hndc.2]

theorem sortedByTime_eq_of_perm (l1 l2 : List Event) (hp : List.Perm l1 l2)
    (hnd : (l1.map (fun e => e.time)).Nodup) :
    sortedByTime l1 = sortedByTime l2 := by
  have h1 := sortedByTime_perm l1
  have h2 := sortedByTime_perm l2
  refine eq_of_sorted_perm_nodup _ _ (h1.trans (hp.trans h2.symm))
    (sortedByTime_sorted l1) (sortedByTime_sorted l2) ?_
  exact (h1.map (fun e => e.time)).nodup_iff.mpr hnd

theorem insortTime_filter_time (e : Event) (l : List Event) (tq : ℚ) :
    (insortTime e l).filter (fun f => decide (f.time = tq)) =
      if e.time = tq then e :: l.filter (fun f => decide (f.time = tq))
      else l.filter (fun f => decide (f.time = tq)) := by
  induction l with
  | nil =>
    by_cases he : e.time = tq
    · simp [insortTime, he]
    · simp [insortTime, he]
  | cons f rest ih =>
    rw [insortTime]
    by_cases hc : f.time < e.time
    · rw [if_pos hc]
      by_cases hf : f.time = tq
      · have he2 : ¬ e.time = tq := by
          intro he3
          rw [he3, hf] at hc
          exact lt_irrefl tq hc
        rw [List.filter_cons, List.filter_cons]
        simp only [hf, decide_eq_true_eq, ih, if_neg he2]
      · rw [List.filter_cons, List.filter_cons]
        simp only [decide_eq_true_eq, if_neg hf, ih]
    · rw [if_neg hc]
      by_cases he : e.time = tq
      · rw [List.filter_cons]
        simp [he]
      · rw [List.filter_cons]
        simp [he]

theorem sortedByTime_filter_time (l : List Event) (tq : ℚ) :
    (sortedByTime l).filter (fun f => decide (f.time = tq)) =
      l.filter (fun f => decide (f.time = tq)) := by
  induction l with
  | nil => rfl
  | cons e rest ih =>
    have hstep : sortedByTime (e :: rest) = insortTime e (sortedByTime rest) := rfl
    rw [hstep, insortTime_filter_time, List.filter_cons]
    by_cases he : e.time = tq
    · simp [he, ih]
    · simp [he, ih]

/-! Lemmas about `playCore`. -/

theorem playCore_stEvents (td : Option ℚ) (video : Bool) (evs : List Event)
    (scene : Nat → MObj) : (playCore td video evs scene).stEvents = evs := by
  unfold playCore
  rcases resolveTD td evs with _ | tdv
  · rfl
  · rcases playLoop video Animation.eps evs scene 0 0 0 with ⟨e, sc, renders, frames⟩
    rcases e with _ | msg
    · rfl
    · rfl

theorem playCore_ok_closed (td : Option ℚ) (video : Bool) (evs : List Event)
    (scene : Nat → MObj) (h : (playCore td video evs scene).err = none) :
    (playCore td video evs scene).videoClosed = video := by
  unfold playCore at h ⊢
  rcases hr : resolveTD td evs with _ | tdv
  · rw [hr] at h
    exact Option.noConfusion h
  · rw [hr] at h
    rcases hp : playLoop video Animation.eps evs scene 0 0 0 with ⟨e, sc, renders, frames⟩
    rw [hp] at h
    rcases e with _ | msg
    · rfl
    · exact Option.noConfusion h

/-! Characterization of the playback fold of `fade_in` and `fade_out`. -/

theorem fadeIn_foldl_char (v : ℚ) (tgts : List Nat) (scene : Nat → MObj) (a : Nat) :
    (tgts.foldl (fadeInStep v) scene) a =
      if a ∈ tgts ∧ (scene a).hasAlpha = true ∧ (scene a).alpha < v
      then { scene a with alpha := v } else scene a := by
  induction tgts generalizing scene with
  | nil => simp
  | cons x xs ih =>
    rw [List.foldl_cons]
    by_cases hA : (scene x).hasAlpha = true
    · by_cases hv : v ≤ (scene x).alpha
      · have hstep : fadeInStep v scene x = scene := by
          rw [fadeInStep, if_pos hA, if_pos hv]
        rw [hstep, ih scene]
        by_cases hax : a = x
        · subst hax
          have hnv : ¬ (scene a).alpha < v := not_lt.mpr hv
          simp [hnv]
        · simp [List.mem_cons, hax]
      · have hstep : fadeInStep v scene x =
            updObj scene x (fun o => { o with alpha := v }) := by
          rw [fadeInStep, if_pos hA, if_neg hv]
        rw [hstep, ih _]
        by_cases hax : a = x
        · subst hax
          have hupd : updObj scene a (fun o => { o with alpha := v }) a =
              { scene a with alpha := v } := by
            rw [updObj]
            simp
          rw [hupd]
          simp [hA, not_le.mp hv, lt_irrefl]
        · have hupd : updObj scene x (fun o => { o with alpha := v }) a = scene a := by
            rw [updObj]
            simp [hax]
          rw [hupd]
          simp [List.mem_cons, hax]
    · have hstep : fadeInStep v scene x = scene := by
        rw [fadeInStep, if_neg hA]
      rw [hstep, ih scene]
      by_cases hax : a = x
      · subst hax
        simp [hA]
      · simp [List.mem_cons, hax]

theorem fadeOut_foldlM_char (v : ℚ) (tgts : List Nat) :
    ∀ (scene sc2 : Nat → MObj),
      tgts.foldlM (fadeOutStep v) scene = Except.ok sc2 → ∀ a : Nat,
      sc2 a = if a ∈ tgts ∧ v < (scene a).alpha
              then { scene a with alpha := v } else scene a := by
  induction tgts with
  | nil =>
    intro scene sc2 h a
    rw [← Except.ok.inj h]
    simp
  | cons x xs ih =>
    intro scene sc2 h a
    rw [List.foldlM_cons] at h
    by_cases hA : (scene x).hasAlpha = true
    · by_cases hv : (scene x).alpha ≤ v
      · have hstep : fadeOutStep v scene x = Except.ok scene := by
          rw [fadeOutStep, if_pos hA, if_pos hv]
        rw [hstep] at h
        rw [ih scene sc2 h a]
        by_cases hax : a = x
        · subst hax
          have hnv : ¬ v < (scene a).alpha := not_lt.mpr hv
          simp [hnv]
        · simp [List.mem_cons, hax]
      · have hstep : fadeOutStep v scene x =
            Except.ok (updObj scene x (fun o => { o with alpha := v })) := by
          rw [fadeOutStep, if_pos hA, if_neg hv]
        rw [hstep] at h
        rw [ih _ sc2 h a]
        by_cases hax : a = x
        · subst hax
          have hupd : updObj scene a (fun o => { o with alpha := v }) a =
              { scene a with alpha := v } := by
            rw [updObj]
            simp
          rw [hupd]
          simp [not_le.mp hv, lt_irrefl]
        · have hupd : updObj scene x (fun o => { o with alpha := v }) a = scene a := by
            rw [updObj]
            simp [hax]
          rw [hupd]
          simp [List.mem_cons, hax]
    · have hstep : fadeOutStep v scene x =
          Except.error "AttributeError: object has no attribute alpha" := by
        rw [fadeOutStep, if_neg hA]
      rw [hstep] at h
      exact Except.noConfusion h

theorem applyEvent_fade_in (scene : Nat → MObj) (tt v : ℚ) (tgts : List Nat) :
    applyEvent scene (Event.mk tt AKind.fade_in tgts (Payload.num v)) =
      Except.ok (tgts.foldl (fadeInStep v) scene) := rfl

theorem applyEvent_fade_out (scene : Nat → MObj) (tt v : ℚ) (tgts : List Nat) :
    applyEvent scene (Event.mk tt AKind.fade_out tgts (Payload.num v)) =
      tgts.foldlM (fadeOutStep v) scene := rfl

/-! Shape lemmas for the booking branches. -/

theorem fade_in_some_eq (st : Animation) (as : List Nat) (tv dv : ℚ) :
    st.fade_in (some as) (some tv) (some dv) =
      Except.ok { (parseCore st as tv dv).st with
        events := (parseCore st as tv dv).st.events ++
          (parseCore st as tv dv).rng.map (fun tt =>
            Event.mk tt AKind.fade_in (parseCore st as tv dv).acts
              (Payload.num (lin_interpolate tt (parseCore st as tv dv).t
                ((parseCore st as tv dv).t + (parseCore st as tv dv).duration) 0 1))) } := rfl

theorem fade_in_events_explicit (st : Animation) (as : List Nat) (tv dv : ℚ)
    (st2 : Animation) (h : st.fade_in (some as) (some tv) (some dv) = Except.ok st2)
    (hres : 0 < st.time_resolution) (hD : 0 ≤ dv) :
    st2.events = st.events ++
      (List.range ((nstepsOf st.time_resolution dv).toNat + 1)).map
        (fun (i : ℕ) => Event.mk
          (quantT st.time_resolution tv +
            ((nstepsOf st.time_resolution dv : ℤ) : ℚ) * st.time_resolution * (i : ℚ) /
              ((nstepsOf st.time_resolution dv).toNat : ℚ))
          AKind.fade_in as
          (Payload.num ((i : ℚ) / ((nstepsOf st.time_resolution dv).toNat : ℚ)))) := by
  rw [fade_in_some_eq] at h
  rw [← Except.ok.inj h]
  simp only [parseCore_st_events, parseCore_acts]
  rw [parseCore_rng st as tv dv hres hD, List.map_map]
  simp only [parseCore_t, parseCore_duration]
  have hk0 : 0 ≤ nstepsOf st.time_resolution dv :=
    nstepsOf_nonneg st.time_resolution dv hres hD
  congr 1
  refine List.map_congr_left (fun i hi => ?_)
  simp only [Function.comp]
  have harith : lin_interpolate
      (quantT st.time_resolution tv +
        ((nstepsOf st.time_resolution dv : ℤ) : ℚ) * st.time_resolution * (i : ℚ) /
          ((nstepsOf st.time_resolution dv).toNat : ℚ))
      (quantT st.time_resolution tv)
      (quantT st.time_resolution tv +
        ((nstepsOf st.time_resolution dv : ℤ) : ℚ) * st.time_resolution) 0 1 =
      (i : ℚ) / ((nstepsOf st.time_resolution dv).toNat : ℚ) := by
    set res := st.time_resolution with hresdef
    set k := nstepsOf res dv with hkdef
    have hkn : ((k.toNat : ℕ) : ℚ) = (k : ℚ) := by exact_mod_cast Int.toNat_of_nonneg hk0
    unfold lin_interpolate
    rcases eq_or_lt_of_le hk0 with h0 | hpos
    · have hd0 : ((k : ℤ) : ℚ) * res = 0 := by
        rw [← h0]
        norm_num
      have hn0 : ((k.toNat : ℕ) : ℚ) = 0 := by
        rw [hkn, ← h0]
        norm_num
      rw [hd0, hn0]
      norm_num
    · have hkq : (0 : ℚ) < (k : ℚ) := by exact_mod_cast hpos
      have hdne : ((k : ℤ) : ℚ) * res ≠ 0 := by positivity
      have hnne : ((k.toNat : ℕ) : ℚ) ≠ 0 := by
        rw [hkn]
        exact ne_of_gt hkq
      field_simp
      ring
  rw [harith]

end Vedo

namespace Vedo

theorem filterMap_somes {α β : Type} (f : α → β) (l : List α) :
    l.filterMap (fun a => some (f a)) = l.map f := by
  induction l with
  | nil => rfl
  | cons x xs ih => simp [List.filterMap_cons, ih]

/-! Claim theorems. -/

/-- C1, counterexample: on a freshly constructed `Animation` (where
`total_duration` is `None`, the default) `play()` with zero booked events
does fail: `self.events[-1]` raises `IndexError` before any frame is
rendered and before the video writer is even opened, so no minimal video
file is produced. -/
theorem C1_counterexample :
    (anim0.play defaultScene).err = some "IndexError: list index out of range" ∧
    (anim0.play defaultScene).videoOpened = false ∧
    (anim0.play defaultScene).videoFrames = 0 :=
  ⟨rfl, rfl, rfl⟩

/-- C1, amended: `play()` with zero booked events is a valid no-op run only
when `total_duration` is set explicitly; in that case it does not fail, it
renders the initial state, appends exactly one frame to the video and closes
it. With the default `total_duration = None` it raises `IndexError`
(see the counterexample). -/
theorem C1_theorem (td : ℚ) (scene : Nat → MObj) :
    (Animation.play { total_duration := some td } scene).err = none ∧
    (Animation.play { total_duration := some td } scene).videoFrames = 1 ∧
    (Animation.play { total_duration := some td } scene).videoClosed = true ∧
    (Animation.play { total_duration := some td } scene).renders = 2 :=
  ⟨rfl, rfl, rfl, rfl⟩

/-- C2, counterexample: at time resolution 1, after `fade_in(obj, t=0,
duration=2)` a `change_color("red")` with no time/target arguments books its
first event at t = 0 — the previous call's start time — not at t = 2, the
previous call's end point (the last of its 3 events is at t = 2). -/
theorem C2_counterexample :
    c2Booked.toOption.map (fun s =>
      (s.events.length, (s.events.get? 3).map (fun e => e.time),
       s.events.getLast?.map (fun e => e.time))) = some (6, some 0, some 2) ∧
    (0 : ℚ) ≠ 2 := by
  constructor
  · norm_num [c2Booked, Animation.fade_in, Animation.change_color, Animation._parse,
      parseCore, quantT, nstepsOf, truncQ, linspace, lin_interpolate, animRes1,
      defaultScene, get_color, Bind.bind, Except.bind, List.range_succ, Except.toOption,
      show Int.toNat 3 = 3 from rfl]
  · norm_num

/-- C2, amended: a declaration call that omits its time and target arguments
continues with the immediately preceding call's quantized start time,
duration and target set — it re-books the same window `[t, t + duration]`
(the same sample times), not the window starting at the previous end point
`t + duration`; in the example the color change spans t = 0 to t = 2.
(Stated for non-negative previous start time and duration, with a positive
time resolution.) -/
theorem C2_theorem (st : Animation) (objs : Option (List Nat)) (t0 dur0 : Option ℚ)
    (p : ParseOut) (hp : st._parse objs t0 dur0 = Except.ok p)
    (hres : 0 < st.time_resolution) (ht : 0 ≤ p.t) (hd : 0 ≤ p.duration)
    (p2 : ParseOut) (hp2 : p.st._parse none none none = Except.ok p2) :
    p2.acts = p.acts ∧ p2.t = p.t ∧ p2.duration = p.duration ∧ p2.rng = p.rng := by
  obtain ⟨os, tv, dv, hps⟩ := parse_ok_shape st objs t0 dur0 p hp
  subst hps
  simp only [Animation._parse, parseCore_st_lastActs, parseCore_st_lastT,
    parseCore_st_lastDuration] at hp2
  by_cases hos : os.isEmpty = true
  · rw [if_pos hos] at hp2
    exact absurd hp2 (by simp)
  · rw [if_neg hos] at hp2
    have hp2eq := (Except.ok.inj hp2).symm
    have htres : (if (parseCore st os tv dv).t = 0 then (0 : ℚ)
        else (parseCore st os tv dv).t) = (parseCore st os tv dv).t := by
      split
      · rename_i h0
        exact h0.symm
      · rfl
    have hdres : (if (parseCore st os tv dv).duration = 0 then (0 : ℚ)
        else (parseCore st os tv dv).duration) = (parseCore st os tv dv).duration := by
      split
      · rename_i h0
        exact h0.symm
      · rfl
    rw [htres, hdres] at hp2eq
    subst hp2eq
    have hm0 : 0 ≤ truncQ (tv / st.time_resolution + 1 / 2) := by
      have hq : (0 : ℚ) ≤ (truncQ (tv / st.time_resolution + 1 / 2) : ℚ) := by
        by_contra hneg
        push_neg at hneg
        have : (truncQ (tv / st.time_resolution + 1 / 2) : ℚ) * st.time_resolution < 0 :=
          mul_neg_of_neg_of_pos hneg hres
        exact absurd ht (not_le.mpr this)
      exact_mod_cast hq
    have hk0 : 0 ≤ nstepsOf st.time_resolution dv := by
      have hq : (0 : ℚ) ≤ ((nstepsOf st.time_resolution dv : ℤ) : ℚ) := by
        by_contra hneg
        push_neg at hneg
        have : ((nstepsOf st.time_resolution dv : ℤ) : ℚ) * st.time_resolution < 0 :=
          mul_neg_of_neg_of_pos hneg hres
        exact absurd hd (not_le.mpr this)
      exact_mod_cast hq
    have htq : quantT (parseCore st os tv dv).st.time_resolution (parseCore st os tv dv).t =
        (parseCore st os tv dv).t := by
      rw [parseCore_st_res]
      have htarg : (parseCore st os tv dv).t =
          ((truncQ (tv / st.time_resolution + 1 / 2) : ℤ) : ℚ) * st.time_resolution := rfl
      rw [htarg, quantT_requant st.time_resolution hres _ hm0]
    have hdq : nstepsOf (parseCore st os tv dv).st.time_resolution
        (parseCore st os tv dv).duration = nstepsOf st.time_resolution dv := by
      rw [parseCore_st_res, parseCore_duration]
      exact nstepsOf_requant st.time_resolution hres _ hk0
    have h2t : (parseCore (parseCore st os tv dv).st os (parseCore st os tv dv).t
        (parseCore st os tv dv).duration).t = (parseCore st os tv dv).t := by
      rw [parseCore_t]
      exact htq
    have h2d : (parseCore (parseCore st os tv dv).st os (parseCore st os tv dv).t
        (parseCore st os tv dv).duration).duration = (parseCore st os tv dv).duration := by
      rw [parseCore_duration, hdq, parseCore_st_res]
      exact (parseCore_duration st os tv dv).symm
    refine ⟨parseCore_acts _ _ _ _, h2t, h2d, ?_⟩
    rw [parseCore_rng_def (parseCore st os tv dv).st os (parseCore st os tv dv).t
        (parseCore st os tv dv).duration,
      parseCore_rng_def st os tv dv, hdq, h2t, h2d]

/-- C2, witness: the amended continuation theorem applied to the concrete
two-call scenario at resolution 1. -/
theorem C2_witness :
    c2P2.acts = c2P1.acts ∧ c2P2.t = c2P1.t ∧ c2P2.duration = c2P1.duration ∧
      c2P2.rng = c2P1.rng :=
  C2_theorem animRes1 (some [0]) (some 0) (some 2) c2P1 rfl
    (by norm_num [animRes1])
    (by norm_num [c2P1, parseCore, quantT, truncQ, animRes1])
    (by norm_num [c2P1, parseCore, nstepsOf, truncQ, animRes1])
    c2P2
    (by norm_num [c2P1, c2P2, Animation._parse, parseCore, quantT, nstepsOf, truncQ,
      animRes1])

/-- C4: booking quantizes the duration to `nsteps = int(D / R + 0.5)`
(round half up for non-negative values, the rule the code implements) and
produces an inclusive, evenly spaced sample set of `nsteps + 1` points from
the quantized start to start + quantized duration; `D = 0.07, R = 0.02`
yields `nsteps = 4` (3.5 rounds up) and 5 samples, and `D = 0` yields
exactly one sample at the (quantized) start time. -/
theorem C4_theorem (st : Animation) (as : List Nat) (tv dv : ℚ)
    (p : ParseOut) (hp : st._parse (some as) (some tv) (some dv) = Except.ok p)
    (hres : 0 < st.time_resolution) (hD : 0 ≤ dv) :
    p.rng.length = (nstepsOf st.time_resolution dv).toNat + 1 ∧
    p.rng = (List.range ((nstepsOf st.time_resolution dv).toNat + 1)).map
      (fun (i : ℕ) => p.t + p.duration * (i : ℚ) /
        ((nstepsOf st.time_resolution dv).toNat : ℚ)) ∧
    p.rng.head? = some p.t ∧
    p.rng.getLast? = some (p.t + p.duration) ∧
    nstepsOf ((2 : ℚ) / 100) (7 / 100) = 4 ∧
    (anim0._parse (some [0]) (some 0) (some (7 / 100))).toOption.map
      (fun q => q.rng.length) = some 5 ∧
    (animRes1._parse (some [0]) (some 5) (some 0)).toOption.map
      (fun q => q.rng) = some [5] := by
  have hpeq : p = parseCore st as tv dv := (Except.ok.inj hp).symm
  subst hpeq
  have hk0 : 0 ≤ nstepsOf st.time_resolution dv :=
    nstepsOf_nonneg st.time_resolution dv hres hD
  refine ⟨parseCore_rng_length st as tv dv hres hD,
    parseCore_rng st as tv dv hres hD, ?_, ?_, ?_, ?_, ?_⟩
  · rw [parseCore_rng_def, toNat_add_one _ hk0]
    exact linspace_succ_headq _ _ _
  · rw [parseCore_rng_def, toNat_add_one _ hk0]
    refine linspace_succ_getLastq _ _ _ (fun hn0 => ?_)
    have hkz : nstepsOf st.time_resolution dv = 0 := by omega
    rw [parseCore_duration, hkz]
    norm_num
  · norm_num [nstepsOf, truncQ]
  · have hstep : (anim0._parse (some [0]) (some 0) (some (7 / 100))).toOption =
        some (parseCore anim0 [0] 0 (7 / 100)) := rfl
    rw [hstep, Option.map_some']
    rw [parseCore_rng_length anim0 [0] 0 (7 / 100) (by norm_num [anim0]) (by norm_num)]
    norm_num [anim0, nstepsOf, truncQ]
    decide
  · have hstep : (animRes1._parse (some [0]) (some 5) (some 0)).toOption =
        some (parseCore animRes1 [0] 5 0) := rfl
    rw [hstep, Option.map_some']
    norm_num [parseCore, animRes1, quantT, nstepsOf, truncQ, linspace, List.range_succ,
      show Int.toNat 1 = 1 from rfl]

/-- C4, witness: the quantization theorem applied to the concrete call
`_parse(t=0, duration=0.07)` at the default resolution 0.02. -/
theorem C4_witness :
    c4P.rng.length = (nstepsOf anim0.time_resolution (7 / 100)).toNat + 1 ∧
    c4P.rng = (List.range ((nstepsOf anim0.time_resolution (7 / 100)).toNat + 1)).map
      (fun (i : ℕ) => c4P.t + c4P.duration * (i : ℚ) /
        ((nstepsOf anim0.time_resolution (7 / 100)).toNat : ℚ)) ∧
    c4P.rng.head? = some c4P.t ∧
    c4P.rng.getLast? = some (c4P.t + c4P.duration) ∧
    nstepsOf ((2 : ℚ) / 100) (7 / 100) = 4 ∧
    (anim0._parse (some [0]) (some 0) (some (7 / 100))).toOption.map
      (fun q => q.rng.length) = some 5 ∧
    (animRes1._parse (some [0]) (some 5) (some 0)).toOption.map
      (fun q => q.rng) = some [5] :=
  C4_theorem anim0 [0] 0 (7 / 100) c4P rfl (by norm_num [anim0]) (by norm_num)

/-- C3, counterexample: a `fade_in` booking with duration 0 (the claim
quantifies over every duration; `switch_on` books exactly this) appends
`round(0/R) + 1 = 1` event, but its single alpha payload is the degenerate
interpolation value 0, so the payloads do not reach 1.0 — the sequence is
not "from 0.0 to 1.0". -/
theorem C3_counterexample :
    (Animation.fade_in animRes1 (some [0]) (some 0) (some 0)).toOption.map
        (fun s => (s.events.length, s.events.getLast?.map (fun e => e.payload)))
      = some (1, some (Payload.num 0)) ∧ Payload.num (0 : ℚ) ≠ Payload.num 1 := by
  constructor
  · norm_num [Animation.fade_in, Animation._parse, parseCore, quantT, nstepsOf, truncQ,
      linspace, lin_interpolate, animRes1, List.range_succ, Except.toOption]
  · norm_num

/-- C3, amended: for every `fade_in` booking with duration `D ≥ 0` and
resolution `R > 0`, the call appends exactly `nsteps + 1` events, where
`nsteps = int(D/R + 0.5)` (round half up); when `nsteps ≥ 1` the alpha
payloads are exactly `i / nsteps` for `i = 0 .. nsteps` — monotonically
non-decreasing from 0.0 to 1.0 across ascending scheduled times. When
`nsteps = 0` a single event is appended whose payload is the degenerate
interpolation value, not 1.0 (see the counterexample). -/
theorem C3_theorem (st : Animation) (as : List Nat) (tv dv : ℚ)
    (st2 : Animation) (h : st.fade_in (some as) (some tv) (some dv) = Except.ok st2)
    (hres : 0 < st.time_resolution) (hD : 0 ≤ dv)
    (hn : 1 ≤ (nstepsOf st.time_resolution dv).toNat) :
    st2.events.length = st.events.length + ((nstepsOf st.time_resolution dv).toNat + 1) ∧
    (st2.events.drop st.events.length).map (fun e => e.payload) =
      (List.range ((nstepsOf st.time_resolution dv).toNat + 1)).map
        (fun (i : ℕ) => Payload.num ((i : ℚ) / ((nstepsOf st.time_resolution dv).toNat : ℚ))) ∧
    ((st2.events.drop st.events.length).filterMap
        (fun e => match e.payload with
          | Payload.num a => some a
          | _ => none)).Chain' (fun a b => a ≤ b) ∧
    ((st2.events.drop st.events.length).map (fun e => e.time)).Chain' (fun a b => a ≤ b) ∧
    ((st2.events.drop st.events.length).filterMap
        (fun e => match e.payload with
          | Payload.num a => some a
          | _ => none)).head? = some 0 ∧
    ((st2.events.drop st.events.length).filterMap
        (fun e => match e.payload with
          | Payload.num a => some a
          | _ => none)).getLast? = some 1 := by
  have hev := fade_in_events_explicit st as tv dv st2 h hres hD
  set n := (nstepsOf st.time_resolution dv).toNat with hn0
  set k := nstepsOf st.time_resolution dv with hk0
  have hnne : ((n : ℕ) : ℚ) ≠ 0 := by
    have hpos : (0 : ℕ) < n := hn
    exact_mod_cast Nat.pos_iff_ne_zero.mp hpos
  have hnpos : (0 : ℚ) < (n : ℚ) := lt_of_le_of_ne (by positivity) (Ne.symm hnne)
  have hkq0 : (0 : ℚ) ≤ ((k : ℤ) : ℚ) := by
    have := nstepsOf_nonneg st.time_resolution dv hres hD
    exact_mod_cast this
  have hdrop : st2.events.drop st.events.length =
      (List.range (n + 1)).map
        (fun (i : ℕ) => Event.mk
          (quantT st.time_resolution tv +
            ((k : ℤ) : ℚ) * st.time_resolution * (i : ℚ) / (n : ℚ))
          AKind.fade_in as (Payload.num ((i : ℚ) / (n : ℚ)))) := by
    rw [hev, List.drop_left]
  have hfm : (st2.events.drop st.events.length).filterMap
      (fun e => match e.payload with
        | Payload.num a => some a
        | _ => none) =
      (List.range (n + 1)).map (fun (i : ℕ) => (i : ℚ) / (n : ℚ)) := by
    rw [hdrop, List.filterMap_map]
    have hconv : ((fun (e : Event) => match e.payload with
          | Payload.num a => some a
          | _ => none) ∘
        (fun (i : ℕ) => Event.mk
          (quantT st.time_resolution tv +
            ((k : ℤ) : ℚ) * st.time_resolution * (i : ℚ) / (n : ℚ))
          AKind.fade_in as (Payload.num ((i : ℚ) / (n : ℚ))))) =
        (fun (i : ℕ) => some ((i : ℚ) / (n : ℚ))) := rfl
    rw [hconv, filterMap_somes]
  refine ⟨?_, ?_, ?_, ?_, ?_, ?_⟩
  · rw [hev]
    simp
  · rw [hdrop, List.map_map]
    rfl
  · rw [hfm]
    refine List.Pairwise.chain' ?_
    rw [List.pairwise_map]
    refine List.Pairwise.imp ?_ (List.pairwise_lt_range (n + 1))
    intro i j hij
    have hij2 : (i : ℚ) ≤ (j : ℚ) := by exact_mod_cast le_of_lt hij
    gcongr
  · have htm : (st2.events.drop st.events.length).map (fun e => e.time) =
        (List.range (n + 1)).map (fun (i : ℕ) =>
          quantT st.time_resolution tv +
            ((k : ℤ) : ℚ) * st.time_resolution * (i : ℚ) / (n : ℚ)) := by
      rw [hdrop, List.map_map]
      rfl
    rw [htm]
    refine List.Pairwise.chain' ?_
    rw [List.pairwise_map]
    refine List.Pairwise.imp ?_ (List.pairwise_lt_range (n + 1))
    intro i j hij
    have hij2 : (i : ℚ) ≤ (j : ℚ) := by exact_mod_cast le_of_lt hij
    have hd0 : (0 : ℚ) ≤ ((k : ℤ) : ℚ) * st.time_resolution :=
      mul_nonneg hkq0 hres.le
    gcongr
  · rw [hfm, List.head?_map, range_succ_head]
    simp
  · rw [hfm, List.getLast?_map, range_succ_getLast]
    simp [div_self hnne]

/-- C3, witness: the amended fade-in theorem applied to
`fade_in([0], t=0, duration=2)` at time resolution 1 (two steps). -/
theorem C3_witness :
    c3St2.events.length = animRes1.events.length +
      ((nstepsOf animRes1.time_resolution 2).toNat + 1) ∧
    (c3St2.events.drop animRes1.events.length).map (fun e => e.payload) =
      (List.range ((nstepsOf animRes1.time_resolution 2).toNat + 1)).map
        (fun (i : ℕ) => Payload.num ((i : ℚ) /
          ((nstepsOf animRes1.time_resolution 2).toNat : ℚ))) ∧
    ((c3St2.events.drop animRes1.events.length).filterMap
        (fun e => match e.payload with
          | Payload.num a => some a
          | _ => none)).Chain' (fun a b => a ≤ b) ∧
    ((c3St2.events.drop animRes1.events.length).map (fun e => e.time)).Chain'
      (fun a b => a ≤ b) ∧
    ((c3St2.events.drop animRes1.events.length).filterMap
        (fun e => match e.payload with
          | Payload.num a => some a
          | _ => none)).head? = some 0 ∧
    ((c3St2.events.drop animRes1.events.length).filterMap
        (fun e => match e.payload with
          | Payload.num a => some a
          | _ => none)).getLast? = some 1 :=
  C3_theorem animRes1 [0] 0 2 c3St2 rfl (by norm_num [animRes1]) (by norm_num)
    (by norm_num [animRes1, nstepsOf, truncQ])

/-- C5, counterexample: `move` with a resolved target set of two objects
does not fail and does not abort: it returns normally, logs an error
message, and books 2 events (resolution 1, duration 1) — there is no
`InvalidTargetCountError` anywhere in the code. -/
theorem C5_counterexample :
    (animRes1.move defaultScene (some [0, 1]) (1, 1, 1) (some 0) (some 1) "linear").toOption.map
        (fun s => (s.events.length, s.log))
      = some (2, ["in move(), can move only one object."]) := by
  norm_num [Animation.move, Animation._parse, parseCore, quantT, nstepsOf, truncQ,
    linspace, animRes1, defaultScene, hasQuad, List.range_succ, Except.toOption,
    show Int.toNat 2 = 2 from rfl]

/-- C5, amended: a single-target transition (`move`, `rotate`) whose resolved
target set contains more than one object only logs an error message
("can move only one object") and continues: no exception is raised, and the
call books its `nsteps + 1` events as usual (computed from the first target
for `move`). -/
theorem C5_theorem (st : Animation) (scene : Nat → MObj) (acts : List Nat)
    (pt : ℚ × ℚ × ℚ) (axis : AxisVal) (angle tv dv : ℚ) (style : String)
    (hacts : 2 ≤ acts.length) (hres : 0 < st.time_resolution) (hD : 0 ≤ dv) :
    (st.move scene (some acts) pt (some tv) (some dv) style).toOption.map
        (fun s => (s.log, s.events.length))
      = some (st.log ++ ["in move(), can move only one object."],
          st.events.length + ((nstepsOf st.time_resolution dv).toNat + 1)) ∧
    (st.rotate (some acts) axis angle (some tv) (some dv)).toOption.map
        (fun s => (s.log, s.events.length))
      = some (st.log ++ ["in rotate(), can move only one object."],
          st.events.length + ((nstepsOf st.time_resolution dv).toNat + 1)) := by
  have hrl := parseCore_rng_length st acts tv dv hres hD
  rcases acts with _ | ⟨a0, rest⟩
  · exact absurd hacts (by simp)
  · have hlen : rest.length + 1 ≠ 1 := by
      simp only [List.length_cons] at hacts
      omega
    constructor
    · simp only [Animation.move, parse_some_eq, Except.toOption, parseCore_acts,
        List.length_cons, hlen, ne_eq, not_false_eq_true, if_true, parseCore_st_log,
        parseCore_st_events, Option.map_some']
      simp [hrl, List.enum_length]
    · simp only [Animation.rotate, parse_some_eq, Except.toOption, parseCore_acts,
        List.length_cons, hlen, ne_eq, not_false_eq_true, if_true, parseCore_st_log,
        parseCore_st_events, Option.map_some']
      simp [hrl]

/-- C5, witness: the amended multi-target theorem applied to a concrete
two-target `move` and `rotate` at resolution 1. -/
theorem C5_witness :
    (animRes1.move defaultScene (some [0, 1]) (2, 2, 2) (some 0) (some 1) "linear").toOption.map
        (fun s => (s.log, s.events.length))
      = some (animRes1.log ++ ["in move(), can move only one object."],
          animRes1.events.length + ((nstepsOf animRes1.time_resolution 1).toNat + 1)) ∧
    (animRes1.rotate (some [0, 1]) (AxisVal.str "x") 90 (some 0) (some 1)).toOption.map
        (fun s => (s.log, s.events.length))
      = some (animRes1.log ++ ["in rotate(), can move only one object."],
          animRes1.events.length + ((nstepsOf animRes1.time_resolution 1).toNat + 1)) :=
  C5_theorem animRes1 defaultScene [0, 1] (2, 2, 2) (AxisVal.str "x") 90 0 1 "linear"
    (by norm_num) (by norm_num [animRes1]) (by norm_num)

/-- C6, counterexample: `change_lighting` with the unrecognized style "foo"
and a non-empty target list does abort: after logging the unknown-style
error it raises (the local `pars` is referenced before assignment when the
first payload is computed), and no events are booked — the call does not
proceed with a degraded/default parameter set. -/
theorem C6_counterexample :
    animRes1.change_lighting defaultScene "foo" (some [0]) (some 0) (some 1)
      = Except.error
          ({ (parseCore animRes1 [0] 0 1).st with log := ["Unknown lighting style foo"] },
           "UnboundLocalError: local variable pars referenced before assignment") ∧
    (parseCore animRes1 [0] 0 1).st.events = [] := by
  constructor
  · norm_num [Animation.change_lighting, Animation._parse, parseCore, quantT, nstepsOf,
      truncQ, linspace, animRes1, List.range_succ,
      show lightingPars "foo" = none from rfl,
      show "Unknown lighting style " ++ "foo" = "Unknown lighting style foo" from rfl,
      show Int.toNat 2 = 2 from rfl]
  · rfl

/-- C6, amended: for an unrecognized lighting-style keyword with a non-empty
target set, the error is logged but the call does not proceed: computing the
first payload references the never-assigned local `pars` and the call aborts
with an `UnboundLocalError`; no events are booked and no degraded/default
parameter set is used. -/
theorem C6_theorem (st : Animation) (scene : Nat → MObj) (style : String)
    (acts : List Nat) (tv dv : ℚ)
    (hstyle : lightingPars style = none) (hacts : acts ≠ [])
    (hres : 0 < st.time_resolution) (hD : 0 ≤ dv) :
    st.change_lighting scene style (some acts) (some tv) (some dv) =
      Except.error ({ (parseCore st acts tv dv).st with
          log := st.log ++ ["Unknown lighting style " ++ style] },
        "UnboundLocalError: local variable pars referenced before assignment") ∧
    (parseCore st acts tv dv).st.events = st.events ∧
    (parseCore st acts tv dv).st.log = st.log := by
  refine ⟨?_, rfl, rfl⟩
  have hrne : (parseCore st acts tv dv).rng.isEmpty = false := by
    have hrl := parseCore_rng_length st acts tv dv hres hD
    rcases hr : (parseCore st acts tv dv).rng with _ | ⟨x, xs⟩
    · rw [hr] at hrl
      simp at hrl
    · rfl
  have hane : (parseCore st acts tv dv).acts.isEmpty = false := by
    rw [parseCore_acts]
    rcases acts with _ | ⟨a0, rest⟩
    · exact absurd rfl hacts
    · rfl
  simp only [Animation.change_lighting, parse_some_eq, hstyle, hrne, hane,
    parseCore_st_log]
  norm_num

/-- C6, witness: the amended unknown-style theorem applied to the concrete
call with style "foo" and one target at resolution 1. -/
theorem C6_witness :
    animRes1.change_lighting defaultScene "foo" (some [0]) (some 0) (some 1) =
      Except.error ({ (parseCore animRes1 [0] 0 1).st with
          log := animRes1.log ++ ["Unknown lighting style " ++ "foo"] },
        "UnboundLocalError: local variable pars referenced before assignment") ∧
    (parseCore animRes1 [0] 0 1).st.events = animRes1.events ∧
    (parseCore animRes1 [0] 0 1).st.log = animRes1.log :=
  C6_theorem animRes1 defaultScene "foo" [0] 0 1 rfl (by simp)
    (by norm_num [animRes1]) (by norm_num)

/-- C7, counterexample: with video output requested, an exception raised
mid-loop (here: a booked `fade_out` event whose target has no `alpha`
attribute, which the unguarded playback branch turns into an
`AttributeError`) propagates out of `play()` with the opened video writer
left unclosed — `vd.close()` is not in any protected region. -/
theorem C7_counterexample :
    (animC7.play sceneNoAlpha).videoOpened = true ∧
    (animC7.play sceneNoAlpha).err = some "AttributeError: object has no attribute alpha" ∧
    (animC7.play sceneNoAlpha).videoClosed = false :=
  ⟨rfl, rfl, rfl⟩

/-- C7, amended: the video writer is closed on the straight-line exit path
only: whenever `play()` terminates without an exception and video output was
requested, the writer is closed. When an exception escapes the loop the
writer stays open, and with an empty event list and unset `total_duration`
the failure happens before the writer is even opened (see counterexample and
C1). -/
theorem C7_theorem (st : Animation) (scene : Nat → MObj)
    (hvid : st.video_filename = true) (hok : (st.play scene).err = none) :
    (st.play scene).videoClosed = true := by
  have h := playCore_ok_closed st.total_duration st.video_filename
    (sortedByTime st.events) scene hok
  exact h.trans hvid

/-- C7, witness: a one-event run that terminates normally closes the video. -/
theorem C7_witness : (animC7ok.play defaultScene).videoClosed = true :=
  C7_theorem animC7ok defaultScene rfl
    (by norm_num [Animation.play, playCore, resolveTD, playLoop, applyEvent,
      sortedByTime, insortTime, animC7ok, defaultScene, fadeInStep, updObj,
      Animation.eps])

/-- C8, counterexample: two `change_color` events sharing the same
scheduled time but carrying different payloads form the same event multiset
in either booking order, yet the terminal color of the target object after
`play()` differs between the two orders: the stable sort keeps the
tie in declaration order, so the last-booked event wins. -/
theorem C8_counterexample :
    List.Perm animC8a.events animC8b.events ∧
    ((animC8a.play defaultScene).sceneOut 0).color = (0, 1, 0) ∧
    ((animC8b.play defaultScene).sceneOut 0).color = (1, 0, 0) ∧
    ((animC8a.play defaultScene).sceneOut 0).color ≠
      ((animC8b.play defaultScene).sceneOut 0).color := by
  have ha : ((animC8a.play defaultScene).sceneOut 0).color = (0, 1, 0) := by
    norm_num [Animation.play, animC8a, playCore, resolveTD, playLoop, applyEvent,
      sortedByTime, insortTime, evRed, evGreen, updObj, Animation.eps, defaultScene]
  have hb : ((animC8b.play defaultScene).sceneOut 0).color = (1, 0, 0) := by
    norm_num [Animation.play, animC8b, playCore, resolveTD, playLoop, applyEvent,
      sortedByTime, insortTime, evRed, evGreen, updObj, Animation.eps, defaultScene]
  refine ⟨?_, ha, hb, ?_⟩
  · show List.Perm [evRed, evGreen] [evGreen, evRed]
    exact List.Perm.swap evGreen evRed []
  · rw [ha, hb]
    norm_num

/-- C8, amended: `play()` sorts the event list by scheduled time with a
stable sort before replaying (the result is time-sorted, a permutation of
the booked list, and events sharing any fixed timestamp keep their booking
order); consequently the whole playback outcome — terminal per-object state
included — is independent of the booking order provided all scheduled times
are distinct. With tied timestamps the outcome can depend on the booking
order (see the counterexample). -/
theorem C8_theorem (st : Animation) (l1 l2 : List Event) (scene : Nat → MObj) (tq : ℚ)
    (hperm : List.Perm l1 l2) (hnd : (l1.map (fun e => e.time)).Nodup) :
    Animation.play { st with events := l1 } scene =
      Animation.play { st with events := l2 } scene ∧
    (Animation.play { st with events := l1 } scene).stEvents.Pairwise timeLE ∧
    List.Perm (Animation.play { st with events := l1 } scene).stEvents l1 ∧
    (Animation.play { st with events := l1 } scene).stEvents.filter
        (fun e => decide (e.time = tq)) =
      l1.filter (fun e => decide (e.time = tq)) := by
  have hsort : sortedByTime l1 = sortedByTime l2 :=
    sortedByTime_eq_of_perm l1 l2 hperm hnd
  have hse : (Animation.play { st with events := l1 } scene).stEvents = sortedByTime l1 :=
    playCore_stEvents _ _ _ _
  refine ⟨?_, ?_, ?_, ?_⟩
  · show playCore st.total_duration st.video_filename (sortedByTime l1) scene =
      playCore st.total_duration st.video_filename (sortedByTime l2) scene
    rw [hsort]
  · rw [hse]
    exact sortedByTime_sorted l1
  · rw [hse]
    exact sortedByTime_perm l1
  · rw [hse]
    exact sortedByTime_filter_time l1 tq

/-- C8, witness: the order-independence theorem applied to two events with
distinct times booked in the two possible orders. -/
theorem C8_witness :
    Animation.play { animEmptyTD with events := [evT0, evT1] } defaultScene =
      Animation.play { animEmptyTD with events := [evT1, evT0] } defaultScene ∧
    (Animation.play { animEmptyTD with events := [evT0, evT1] } defaultScene).stEvents.Pairwise
      timeLE ∧
    List.Perm
      (Animation.play { animEmptyTD with events := [evT0, evT1] } defaultScene).stEvents
      [evT0, evT1] ∧
    (Animation.play { animEmptyTD with events := [evT0, evT1] } defaultScene).stEvents.filter
        (fun e => decide (e.time = 0)) =
      [evT0, evT1].filter (fun e => decide (e.time = 0)) :=
  C8_theorem animEmptyTD [evT0, evT1] [evT1, evT0] defaultScene 0
    (List.Perm.swap evT1 evT0 []) (by decide)

/-- C9: every `rotate` booking appends `nsteps + 1` events whose payload is
the unchanged axis argument paired with `angle / len(rng)` (the angle divided
by the number of samples); during playback a rotation is applied only when
the stored axis is exactly the string "x", "y" or "z" — a vector axis
(including the default `(1, 0, 0)`) or any other string silently leaves the
scene unchanged. -/
theorem C9_theorem (st : Animation) (act : List Nat) (axis : AxisVal) (angle tv dv : ℚ)
    (st2 : Animation)
    (h : st.rotate (some act) axis angle (some tv) (some dv) = Except.ok st2)
    (hres : 0 < st.time_resolution) (hD : 0 ≤ dv)
    (scene : Nat → MObj) (tgt : Nat) (rest : List Nat) (tt ang : ℚ) (v : ℚ × ℚ × ℚ)
    (s : String) (hsx : s ≠ "x") (hsy : s ≠ "y") (hsz : s ≠ "z") :
    (st2.events.drop st.events.length).map (fun e => (e.action, e.payload)) =
      List.replicate ((nstepsOf st.time_resolution dv).toNat + 1)
        (AKind.rotate, Payload.rot axis
          (angle / ((((nstepsOf st.time_resolution dv).toNat + 1 : ℕ) : ℚ)))) ∧
    applyEvent scene (Event.mk tt AKind.rotate (tgt :: rest)
        (Payload.rot (AxisVal.vec v) ang)) = Except.ok scene ∧
    applyEvent scene (Event.mk tt AKind.rotate (tgt :: rest)
        (Payload.rot (AxisVal.str s) ang)) = Except.ok scene ∧
    applyEvent scene (Event.mk tt AKind.rotate (tgt :: rest)
        (Payload.rot (AxisVal.str "x") ang)) =
      Except.ok (updObj scene tgt (fun o => { o with rotX := o.rotX + ang })) ∧
    applyEvent scene (Event.mk tt AKind.rotate (tgt :: rest)
        (Payload.rot (AxisVal.str "y") ang)) =
      Except.ok (updObj scene tgt (fun o => { o with rotY := o.rotY + ang })) ∧
    applyEvent scene (Event.mk tt AKind.rotate (tgt :: rest)
        (Payload.rot (AxisVal.str "z") ang)) =
      Except.ok (updObj scene tgt (fun o => { o with rotZ := o.rotZ + ang })) := by
  have hrl := parseCore_rng_length st act tv dv hres hD
  refine ⟨?_, rfl, ?_, ?_, ?_, ?_⟩
  · simp only [Animation.rotate, parse_some_eq] at h
    have h2 := (Except.ok.inj h).symm
    subst h2
    have hite : (if (parseCore st act tv dv).acts.length ≠ 1 then
        { (parseCore st act tv dv).st with
          log := (parseCore st act tv dv).st.log ++ ["in rotate(), can move only one object."] }
        else (parseCore st act tv dv).st).events = st.events := by
      split
      · rfl
      · rfl
    simp only [hite]
    rw [List.drop_left]
    rw [List.map_map]
    have hconv : ((fun (e : Event) => (e.action, e.payload)) ∘
        (fun tt => Event.mk tt AKind.rotate (parseCore st act tv dv).acts
          (Payload.rot axis (angle / ((parseCore st act tv dv).rng.length : ℚ))))) =
        (fun (ttx : ℚ) => (AKind.rotate, Payload.rot axis
          (angle / ((parseCore st act tv dv).rng.length : ℚ)))) := rfl
    rw [hconv, List.map_const']
    rw [hrl]
  · simp [applyEvent, hsx, hsy, hsz]
  · simp [applyEvent]
  · simp [applyEvent]
  · simp [applyEvent]

/-- C9, witness: the rotate theorem applied to a concrete one-target booking
with the default vector axis and to concrete playback events. -/
theorem C9_witness :
    (c9St2.events.drop animRes1.events.length).map (fun e => (e.action, e.payload)) =
      List.replicate ((nstepsOf animRes1.time_resolution 1).toNat + 1)
        (AKind.rotate, Payload.rot (AxisVal.vec (1, 0, 0))
          (90 / ((((nstepsOf animRes1.time_resolution 1).toNat + 1 : ℕ) : ℚ)))) ∧
    applyEvent defaultScene (Event.mk 0 AKind.rotate [0]
        (Payload.rot (AxisVal.vec (1, 0, 0)) 5)) = Except.ok defaultScene ∧
    applyEvent defaultScene (Event.mk 0 AKind.rotate [0]
        (Payload.rot (AxisVal.str "foo") 5)) = Except.ok defaultScene ∧
    applyEvent defaultScene (Event.mk 0 AKind.rotate [0]
        (Payload.rot (AxisVal.str "x") 5)) =
      Except.ok (updObj defaultScene 0 (fun o => { o with rotX := o.rotX + 5 })) ∧
    applyEvent defaultScene (Event.mk 0 AKind.rotate [0]
        (Payload.rot (AxisVal.str "y") 5)) =
      Except.ok (updObj defaultScene 0 (fun o => { o with rotY := o.rotY + 5 })) ∧
    applyEvent defaultScene (Event.mk 0 AKind.rotate [0]
        (Payload.rot (AxisVal.str "z") 5)) =
      Except.ok (updObj defaultScene 0 (fun o => { o with rotZ := o.rotZ + 5 })) :=
  C9_theorem animRes1 [0] (AxisVal.vec (1, 0, 0)) 90 0 1 c9St2 rfl
    (by norm_num [animRes1]) (by norm_num) defaultScene 0 [] 0 5 (1, 0, 0) "foo"
    (by decide) (by decide) (by decide)

/-- C10: during playback, `fade_in` raises a target to its alpha payload only
when the target has the attribute and its current alpha is strictly below the
payload (so it never decreases alpha); `fade_out` lowers a target to its
payload only when the current alpha is strictly above it (so it never
increases alpha); and `change_alpha_between` books all of its events with
`self.fade_out` as the replay action, so a requested alpha increase inherits
the `fade_out` skip rule and is never applied. -/
theorem C10_theorem (scene : Nat → MObj) (tgts : List Nat) (tt v : ℚ) (a : Nat)
    (sc1 : Nat → MObj)
    (h1 : applyEvent scene (Event.mk tt AKind.fade_in tgts (Payload.num v)) =
      Except.ok sc1)
    (sc2 : Nat → MObj)
    (h2 : applyEvent scene (Event.mk tt AKind.fade_out tgts (Payload.num v)) =
      Except.ok sc2)
    (stb : Animation) (a1 a2 : ℚ) (bacts : Option (List Nat)) (bt bd : Option ℚ)
    (stb2 : Animation)
    (hb : stb.change_alpha_between a1 a2 bacts bt bd = Except.ok stb2) :
    sc1 a = (if a ∈ tgts ∧ (scene a).hasAlpha = true ∧ (scene a).alpha < v
             then { scene a with alpha := v } else scene a) ∧
    (scene a).alpha ≤ (sc1 a).alpha ∧
    sc2 a = (if a ∈ tgts ∧ v < (scene a).alpha
             then { scene a with alpha := v } else scene a) ∧
    (sc2 a).alpha ≤ (scene a).alpha ∧
    (stb2.events.drop stb.events.length).map (fun e => e.action) =
      List.replicate (stb2.events.length - stb.events.length) AKind.fade_out := by
  have hc1 : sc1 = tgts.foldl (fadeInStep v) scene := (Except.ok.inj h1).symm
  have hchar1 : sc1 a = (if a ∈ tgts ∧ (scene a).hasAlpha = true ∧ (scene a).alpha < v
      then { scene a with alpha := v } else scene a) := by
    rw [hc1]
    exact fadeIn_foldl_char v tgts scene a
  have hchar2 : sc2 a = (if a ∈ tgts ∧ v < (scene a).alpha
      then { scene a with alpha := v } else scene a) :=
    fadeOut_foldlM_char v tgts scene sc2 h2 a
  refine ⟨hchar1, ?_, hchar2, ?_, ?_⟩
  · rw [hchar1]
    split
    · rename_i hcond
      exact le_of_lt hcond.2.2
    · exact le_refl _
  · rw [hchar2]
    split
    · rename_i hcond
      exact le_of_lt hcond.2
    · exact le_refl _
  · unfold Animation.change_alpha_between at hb
    rcases hpb : stb._parse bacts bt bd with e | p
    · rw [hpb] at hb
      exact Except.noConfusion hb
    · rw [hpb] at hb
      have hb2 := (Except.ok.inj hb).symm
      obtain ⟨os, tvx, dvx, hps⟩ := parse_ok_shape stb bacts bt bd p hpb
      subst hb2
      subst hps
      simp only [parseCore_st_events]
      rw [List.drop_left, List.map_map]
      have hconv : ((fun (e : Event) => e.action) ∘
          (fun ttx => Event.mk ttx AKind.fade_out (parseCore stb os tvx dvx).acts
            (Payload.num (lin_interpolate ttx (parseCore stb os tvx dvx).t
              ((parseCore stb os tvx dvx).t + (parseCore stb os tvx dvx).duration) a1 a2)))) =
          (fun (ttx : ℚ) => AKind.fade_out) := rfl
      rw [hconv, List.map_const']
      simp [parseCore_st_events]

/-- C10, witness: the alpha-guard theorem applied to a concrete playback of
one `fade_in` and one `fade_out` event with payload 1/2 on the default scene
(whose object alpha is 1), and a concrete `change_alpha_between` booking. -/
theorem C10_witness :
    defaultScene 0 = (if 0 ∈ [0] ∧ (defaultScene 0).hasAlpha = true ∧
          (defaultScene 0).alpha < 1 / 2
        then { defaultScene 0 with alpha := 1 / 2 } else defaultScene 0) ∧
    (defaultScene 0).alpha ≤ (defaultScene 0).alpha ∧
    c10Sc2 0 = (if 0 ∈ [0] ∧ 1 / 2 < (defaultScene 0).alpha
        then { defaultScene 0 with alpha := 1 / 2 } else defaultScene 0) ∧
    (c10Sc2 0).alpha ≤ (defaultScene 0).alpha ∧
    (c10St2.events.drop animRes1.events.length).map (fun e => e.action) =
      List.replicate (c10St2.events.length - animRes1.events.length) AKind.fade_out :=
  C10_theorem defaultScene [0] 0 (1 / 2) 0 defaultScene
    (by norm_num [applyEvent, fadeInStep, defaultScene])
    c10Sc2
    (by norm_num [applyEvent, fadeOutStep, defaultScene, c10Sc2])
    animRes1 (1 / 2) (3 / 4) (some [0]) (some 0) (some 1) c10St2 rfl

end Vedo
